import Mathlib

/-!
Shallow embedding of the ursa repository discovery behaviour
(src/crates/ursa-network/src/discovery.rs) and the gateway supervisor /
TTL sweeper (src/crates/ursa-gateway/src/main.rs), with theorems checking
the natural-language specification against the code.

Conventions: peer ids and multiaddrs are abstract naturals; instants and
durations are naturals (seconds); a `futures_timer::Delay` created at
instant `now` with duration `d` is represented by its absolute deadline
`now + d`, ready exactly when the current instant is at least the
deadline.  The inner Kademlia and mDNS engines are black boxes per their
polling contract: their per-poll action streams are inputs, and their
address books are concrete association lists so that `addresses_of_peer`
and `add_address` are executable.
-/

namespace Ursa

abbrev PeerId := Nat
abbrev Multiaddr := Nat

/-- The out-events emitted by the discovery behaviour (enum DiscoveryEvent). -/
inductive DiscoveryEvent where
  | connected (peer : PeerId)
  | disconnected (peer : PeerId)
deriving DecidableEq, Repr

/-- NetworkBehaviourAction, parametric in the generated event type.
Payloads that the discovery code moves around without inspecting
(dial options, handler events, connection ids, scores) are abstract naturals. -/
inductive NBAction (E : Type) where
  | generateEvent (e : E)
  | dial (opts : Nat)
  | notifyHandler (peer : PeerId) (event : Nat)
  | reportObservedAddr (address : Multiaddr) (score : Nat)
  | closeConnection (peer : PeerId) (connection : Nat)
deriving DecidableEq, Repr

/-- Result of a Kademlia bootstrap query: Ok carries num_remaining. -/
inductive BootstrapResult where
  | ok (numRemaining : Nat)
  | err
deriving DecidableEq, Repr

/-- The Kademlia events distinguished by handle_kad_event. -/
inductive KademliaEvent where
  | outboundQueryProgressedBootstrap (res : BootstrapResult)
  | routingUpdated (peer : PeerId) (isNewPeer : Bool)
  | other
deriving DecidableEq, Repr

/-- The mDNS events distinguished by handle_mdns_event. -/
inductive MdnsEvent where
  | discovered (peers : List (PeerId × Multiaddr))
  | expired
deriving DecidableEq, Repr

/-- The swarm events distinguished by on_swarm_event. -/
inductive FromSwarm where
  | connectionEstablished (peer : PeerId)
  | connectionClosed (peer : PeerId)
  | other
deriving DecidableEq, Repr

/-- The slice of NetworkConfig read by DiscoveryBehaviour::new.  Each entry of
`bootstrap_nodes` is the outcome of parsing one configured multiaddr:
`some (peer, addr)` when it ends in a p2p component, `none` otherwise
(the filter_map in the source drops those). -/
structure NetworkConfig where
  bootstrap_nodes : List (Option (PeerId × Multiaddr))
  bootstrapper : Bool
  mdns : Bool
  bootstrap_interval : Nat
deriving DecidableEq, Repr

/-- HashSet::insert on a duplicate-free list. -/
def insertPeer (ps : List PeerId) (p : PeerId) : List PeerId :=
  if p ∈ ps then ps else p :: ps

/-- HashSet::remove. -/
def removePeer (ps : List PeerId) (p : PeerId) : List PeerId :=
  ps.filter (fun q => q ≠ p)

/-- HashMap::insert (replacing any previous binding). -/
def mapInsert (m : List (PeerId × List Multiaddr)) (k : PeerId) (v : List Multiaddr) :
    List (PeerId × List Multiaddr) :=
  (k, v) :: m.filter (fun kv => kv.1 ≠ k)

/-- HashMap::get. -/
def mapLookup (m : List (PeerId × List Multiaddr)) (k : PeerId) : Option (List Multiaddr) :=
  (m.find? (fun kv => kv.1 = k)).map (fun kv => kv.2)

/-- State of struct DiscoveryBehaviour.  `kadAddrs` is the Kademlia routing
table address book, `mdns` is the address book of the Toggle-wrapped mDNS
engine (`none` when the toggle is disabled). -/
structure DiscoveryBehaviour where
  kadAddrs : List (PeerId × Multiaddr)
  mdns : Option (List (PeerId × Multiaddr))
  bootstrap_nodes : List (PeerId × Multiaddr)
  peers : List PeerId
  peer_info : List (PeerId × List Multiaddr)
  events : List DiscoveryEvent
  next_bootstrap : Option Nat
  bootstrap_interval : Nat
deriving DecidableEq, Repr

/-- const INITIAL_BOOTSTRAP_DELAY: Duration = Duration::from_secs(5). -/
def INITIAL_BOOTSTRAP_DELAY : Nat := 5

/-- DiscoveryBehaviour::new, evaluated at instant `now`. -/
def DiscoveryBehaviour.new (config : NetworkConfig) (now : Nat) : DiscoveryBehaviour :=
  let bootstrap_nodes := config.bootstrap_nodes.filterMap id
  { kadAddrs := bootstrap_nodes
    mdns := if config.mdns then some [] else none
    bootstrap_nodes := bootstrap_nodes
    peers := bootstrap_nodes.foldl (fun ps pa => insertPeer ps pa.1) []
    peer_info := []
    events := []
    next_bootstrap :=
      if config.bootstrapper then none else some (now + INITIAL_BOOTSTRAP_DELAY)
    bootstrap_interval := config.bootstrap_interval }

/-- DiscoveryBehaviour::add_address (delegates to kademlia.add_address). -/
def DiscoveryBehaviour.add_address (st : DiscoveryBehaviour) (p : PeerId) (a : Multiaddr) :
    DiscoveryBehaviour :=
  { st with kadAddrs := st.kadAddrs ++ [(p, a)] }

/-- Addresses the Kademlia engine knows for a peer. -/
def kadAddressesOf (st : DiscoveryBehaviour) (p : PeerId) : List Multiaddr :=
  (st.kadAddrs.filter (fun pa => pa.1 = p)).map (fun pa => pa.2)

/-- Addresses the Toggle-wrapped mDNS engine knows for a peer (empty when disabled). -/
def mdnsAddressesOf (st : DiscoveryBehaviour) (p : PeerId) : List Multiaddr :=
  match st.mdns with
  | none => []
  | some l => (l.filter (fun pa => pa.1 = p)).map (fun pa => pa.2)

/-- NetworkBehaviour::addresses_of_peer: a fresh vec extended first with the
addresses known to Kademlia, then with those known to mDNS. -/
def DiscoveryBehaviour.addresses_of_peer (st : DiscoveryBehaviour) (p : PeerId) :
    List Multiaddr :=
  let addrs : List Multiaddr := []
  let addrs := addrs ++ kadAddressesOf st p
  let addrs := addrs ++ mdnsAddressesOf st p
  addrs

/-- DiscoveryBehaviour::handle_kad_event, evaluated at instant `now`. -/
def DiscoveryBehaviour.handle_kad_event (st : DiscoveryBehaviour) (now : Nat)
    (event : KademliaEvent) : DiscoveryBehaviour :=
  match event with
  | .outboundQueryProgressedBootstrap res =>
    match res with
    | .ok numRemaining =>
      if numRemaining = 0 then
        { st with next_bootstrap := some (now + st.bootstrap_interval) }
      else st
    | .err =>
      { st with next_bootstrap := some (now + st.bootstrap_interval * 2) }
  | .routingUpdated _ _ => st
  | .other => st

/-- DiscoveryBehaviour::handle_mdns_event. -/
def DiscoveryBehaviour.handle_mdns_event (st : DiscoveryBehaviour) (event : MdnsEvent) :
    DiscoveryBehaviour :=
  match event with
  | .discovered discoveredPeers =>
    discoveredPeers.foldl (fun s pa => s.add_address pa.1 pa.2) st
  | .expired => st

/-- NetworkBehaviour::on_swarm_event. -/
def DiscoveryBehaviour.on_swarm_event (st : DiscoveryBehaviour) (event : FromSwarm) :
    DiscoveryBehaviour :=
  match event with
  | .connectionEstablished p =>
    let st := { st with peers := insertPeer st.peers p }
    let addresses_of_peer := st.addresses_of_peer p
    let st := { st with peer_info := mapInsert st.peer_info p addresses_of_peer }
    { st with events := st.events ++ [.connected p] }
  | .connectionClosed p =>
    { st with
      peers := removePeer st.peers p
      events := st.events ++ [.disconnected p] }
  | .other => st

/-!
The poll method.  Each call is given the finite streams of actions the two
sub-engines would yield on this poll before going pending, the current
instant, and whether a `kademlia.bootstrap()` call would succeed.
-/

/-- Per-poll inputs from the environment of the behaviour. -/
structure PollInput where
  kadActions : List (NBAction KademliaEvent)
  mdnsActions : List (NBAction MdnsEvent)
  now : Nat
  bootstrapOk : Bool
deriving DecidableEq, Repr

/-- Outcome of one call to poll: the resulting state, whether
`kademlia.bootstrap()` was called during the scheduler step, and the action
returned in Poll::Ready (`none` means Poll::Pending). -/
structure PollOutput where
  state : DiscoveryBehaviour
  bootstrapCalled : Bool
  action : Option (NBAction DiscoveryEvent)
deriving DecidableEq, Repr

/-- The `while let Poll::Ready(action) = self.kademlia.poll(..)` loop:
generated Kademlia events are recorded and handled in place; any other
action is returned from poll unchanged. -/
def pollKadLoop (now : Nat) :
    DiscoveryBehaviour → List (NBAction KademliaEvent) →
    DiscoveryBehaviour × Option (NBAction DiscoveryEvent)
  | st, [] => (st, none)
  | st, .generateEvent e :: rest => pollKadLoop now (st.handle_kad_event now e) rest
  | st, .dial opts :: _ => (st, some (.dial opts))
  | st, .notifyHandler p ev :: _ => (st, some (.notifyHandler p ev))
  | st, .reportObservedAddr a s :: _ => (st, some (.reportObservedAddr a s))
  | st, .closeConnection p c :: _ => (st, some (.closeConnection p c))

/-- The periodic bootstrap scheduler step of poll (the `if let Some(delay) =
self.next_bootstrap` block).  Returns the new state and whether
`self.bootstrap()` was called. -/
def pollBootstrap (st : DiscoveryBehaviour) (now : Nat) (bootstrapOk : Bool) :
    DiscoveryBehaviour × Bool :=
  match st.next_bootstrap with
  | none => (st, false)
  | some deadline =>
    if st.peers.length < 12 ∧ deadline ≤ now then
      if bootstrapOk then
        ({ st with next_bootstrap := none }, true)
      else
        ({ st with next_bootstrap := some (now + st.bootstrap_interval * 2) }, true)
    else (st, false)

/-- The `while let Poll::Ready(action) = self.mdns.poll(..)` loop: generated
mDNS events are handled in place, ReportObservedAddr and CloseConnection are
returned from poll, and Dial and NotifyHandler are dropped (the loop
continues). -/
def pollMdnsLoop :
    DiscoveryBehaviour → List (NBAction MdnsEvent) →
    DiscoveryBehaviour × Option (NBAction DiscoveryEvent)
  | st, [] => (st, none)
  | st, .generateEvent e :: rest => pollMdnsLoop (st.handle_mdns_event e) rest
  | st, .reportObservedAddr a s :: _ => (st, some (.reportObservedAddr a s))
  | st, .closeConnection p c :: _ => (st, some (.closeConnection p c))
  | st, .dial _ :: rest => pollMdnsLoop st rest
  | st, .notifyHandler _ _ :: rest => pollMdnsLoop st rest

/-- NetworkBehaviour::poll.  A disabled mDNS toggle polls as pending, so its
action stream is empty in that case. -/
def DiscoveryBehaviour.poll (st : DiscoveryBehaviour) (inp : PollInput) : PollOutput :=
  match st.events with
  | e :: rest =>
    { state := { st with events := rest }, bootstrapCalled := false
      action := some (.generateEvent e) }
  | [] =>
    match pollKadLoop inp.now st inp.kadActions with
    | (st, some a) => { state := st, bootstrapCalled := false, action := some a }
    | (st, none) =>
      match pollBootstrap st inp.now inp.bootstrapOk with
      | (st, called) =>
        match pollMdnsLoop st (if st.mdns.isSome then inp.mdnsActions else []) with
        | (st, out) => { state := st, bootstrapCalled := called, action := out }

/-- Actions returned by a sequence of `n` successive polls with the same
per-poll input. -/
def pollTrace (inp : PollInput) : DiscoveryBehaviour → Nat →
    List (Option (NBAction DiscoveryEvent))
  | _, 0 => []
  | st, n + 1 => (st.poll inp).action :: pollTrace inp (st.poll inp).state n

/-- Folding a sequence of swarm events into the behaviour. -/
def runSwarm : DiscoveryBehaviour → List FromSwarm → DiscoveryBehaviour
  | st, [] => st
  | st, e :: rest => runSwarm (st.on_swarm_event e) rest

/-- Projection of one swarm event onto peer `p`: `some true` for an
establishment of `p`, `some false` for a closure of `p`, `none` otherwise. -/
def swarmFor (p : PeerId) : FromSwarm → Option Bool
  | .connectionEstablished q => if q = p then some true else none
  | .connectionClosed q => if q = p then some false else none
  | .other => none

/-- The most recent connection status of peer `p` in a swarm event sequence
(later events take precedence). -/
def lastStatus (p : PeerId) : List FromSwarm → Option Bool
  | [] => none
  | e :: rest =>
    match lastStatus p rest with
    | some b => some b
    | none => swarmFor p e

/-- Whether a discovery event concerns peer `p`. -/
def eventFor (p : PeerId) : DiscoveryEvent → Bool
  | .connected q => q = p
  | .disconnected q => q = p

/-- Whether a discovery event is a Connected event. -/
def isConn : DiscoveryEvent → Bool
  | .connected _ => true
  | .disconnected _ => false

/-- The discovery event enqueued for one swarm event, if any. -/
def evOf : FromSwarm → Option DiscoveryEvent
  | .connectionEstablished p => some (.connected p)
  | .connectionClosed p => some (.disconnected p)
  | .other => none

/-- Alternation of a boolean stream: `altFrom b l` holds when `l` is
`[b, !b, b, …]`. -/
def altFrom : Bool → List Bool → Prop
  | _, [] => True
  | b, x :: xs => x = b ∧ altFrom (!b) xs

/-- Decidability of alternation, by recursion on the stream. -/
def altFromDec : ∀ b l, Decidable (altFrom b l)
  | _, [] => .isTrue trivial
  | b, x :: xs => @instDecidableAnd _ _ (instDecidableEqBool x b) (altFromDec (!b) xs)

instance : ∀ b l, Decidable (altFrom b l) := altFromDec

/-!
Gateway supervisor (src/crates/ursa-gateway/src/main.rs): graceful
shutdown and the TTL sweeper worker.
-/

/-- The three workers subscribed to the shutdown broadcast, in the order of
the `workers` vec built in main. -/
inductive GatewayWorker where
  | publicServer
  | adminServer
  | ttlSweeper
deriving DecidableEq, Repr

/-- Observable steps taken by graceful_shutdown, in execution order. -/
inductive ShutdownStep where
  | broadcastShutdown
  | awaitWorker (w : GatewayWorker)
  | sendCacheShutdown
  | awaitCacheWorker
deriving DecidableEq, Repr

/-- The trace of graceful_shutdown: broadcast on shutdown_tx, await each
handle in `workers` in order, send on main_shutdown_tx, await main_worker
(the cache worker). -/
def graceful_shutdown (workers : List GatewayWorker) : List ShutdownStep :=
  ShutdownStep.broadcastShutdown ::
    (workers.map ShutdownStep.awaitWorker ++
      [ShutdownStep.sendCacheShutdown, ShutdownStep.awaitCacheWorker])

/-- The `workers` vec passed to graceful_shutdown in main:
`vec![server_worker, admin_worker, ttl_cache_worker]`. -/
def gatewayWorkers : List GatewayWorker :=
  [.publicServer, .adminServer, .ttlSweeper]

/-- Resolution of one `select!` iteration in the TTL sweeper loop: either the
interval sleep fires (with the given outcome for `worker_tx.send`) or the
shutdown broadcast is received. -/
inductive TtlBranch where
  | tick (sendOk : Bool)
  | shutdown
deriving DecidableEq, Repr

/-- Observable effects of the TTL sweeper. -/
inductive TtlEffect where
  | postTtlCleanUp
  | sendFailureSignal
deriving DecidableEq, Repr

/-- One iteration of the TTL sweeper loop: the emitted effects and whether
the loop continues.  A tick whose send succeeds posts TtlCleanUp; a tick
whose send fails (channel closed) sends the failure signal; only the
shutdown branch breaks the loop. -/
def ttl_step : TtlBranch → List TtlEffect × Bool
  | .tick true => ([.postTtlCleanUp], true)
  | .tick false => ([.sendFailureSignal], true)
  | .shutdown => ([], false)

/-- Running the TTL sweeper loop over a sequence of branch resolutions:
accumulated effects and whether the loop is still running afterwards. -/
def ttl_run : List TtlBranch → List TtlEffect × Bool
  | [] => ([], true)
  | b :: rest =>
    match ttl_step b with
    | (effs, true) =>
      let r := ttl_run rest
      (effs ++ r.1, r.2)
    | (effs, false) => (effs, false)

/-- A concrete discovery state used to instantiate hypothesis-bearing
theorems. -/
def sampleState : DiscoveryBehaviour :=
  { kadAddrs := [(1, 10)], mdns := some [(1, 20)], bootstrap_nodes := []
    peers := [], peer_info := [], events := [], next_bootstrap := some 3
    bootstrap_interval := 7 }

/-!
Helper lemmas.
-/

theorem mem_insertPeer (ps : List PeerId) (p q : PeerId) :
    q ∈ insertPeer ps p ↔ q = p ∨ q ∈ ps := by
  unfold insertPeer
  split
  · constructor
    · exact fun h => Or.inr h
    · rintro (rfl | h)
      · assumption
      · assumption
  · simp

theorem mem_removePeer (ps : List PeerId) (p q : PeerId) :
    q ∈ removePeer ps p ↔ q ∈ ps ∧ q ≠ p := by
  simp [removePeer]

theorem mapLookup_mapInsert (m : List (PeerId × List Multiaddr)) (k : PeerId)
    (v : List Multiaddr) : mapLookup (mapInsert m k v) k = some v := by
  simp [mapLookup, mapInsert, List.find?]

theorem add_address_fields (st : DiscoveryBehaviour) (p : PeerId) (a : Multiaddr) :
    (st.add_address p a).next_bootstrap = st.next_bootstrap ∧
    (st.add_address p a).peers = st.peers ∧
    (st.add_address p a).events = st.events := ⟨rfl, rfl, rfl⟩

theorem foldl_add_address_fields (l : List (PeerId × Multiaddr)) :
    ∀ st : DiscoveryBehaviour,
      ((l.foldl (fun s pa => s.add_address pa.1 pa.2) st).next_bootstrap
          = st.next_bootstrap) ∧
      ((l.foldl (fun s pa => s.add_address pa.1 pa.2) st).peers = st.peers) ∧
      ((l.foldl (fun s pa => s.add_address pa.1 pa.2) st).events = st.events) := by
  induction l with
  | nil => intro st; exact ⟨rfl, rfl, rfl⟩
  | cons pa rest ih =>
    intro st
    simpa using ih (st.add_address pa.1 pa.2)

theorem handle_mdns_event_fields (st : DiscoveryBehaviour) (e : MdnsEvent) :
    ((st.handle_mdns_event e).next_bootstrap = st.next_bootstrap) ∧
    ((st.handle_mdns_event e).peers = st.peers) ∧
    ((st.handle_mdns_event e).events = st.events) := by
  cases e with
  | discovered ps => exact foldl_add_address_fields ps st
  | expired => exact ⟨rfl, rfl, rfl⟩

theorem pollMdnsLoop_fields (acts : List (NBAction MdnsEvent)) :
    ∀ st : DiscoveryBehaviour,
      ((pollMdnsLoop st acts).1.next_bootstrap = st.next_bootstrap) ∧
      ((pollMdnsLoop st acts).1.peers = st.peers) ∧
      ((pollMdnsLoop st acts).1.events = st.events) := by
  induction acts with
  | nil => intro st; exact ⟨rfl, rfl, rfl⟩
  | cons a rest ih =>
    intro st
    cases a with
    | generateEvent e =>
      have h1 := handle_mdns_event_fields st e
      have h2 := ih (st.handle_mdns_event e)
      simp only [pollMdnsLoop]
      exact ⟨h2.1.trans h1.1, h2.2.1.trans h1.2.1, h2.2.2.trans h1.2.2⟩
    | dial o => simpa [pollMdnsLoop] using ih st
    | notifyHandler p ev => simpa [pollMdnsLoop] using ih st
    | reportObservedAddr a s => exact ⟨rfl, rfl, rfl⟩
    | closeConnection p c => exact ⟨rfl, rfl, rfl⟩

/-!
C3 — initial bootstrap scheduling at construction.
-/

/-- C3: constructing the discovery behaviour sets next_bootstrap to a delay
of five seconds exactly when the node is not configured as a bootstrapper;
for a bootstrapper it is initially None. -/
theorem C3_initial_bootstrap (config : NetworkConfig) (now : Nat) :
    ((DiscoveryBehaviour.new config now).next_bootstrap
        = some (now + INITIAL_BOOTSTRAP_DELAY) ↔ config.bootstrapper = false) ∧
    (config.bootstrapper = true →
      (DiscoveryBehaviour.new config now).next_bootstrap = none) := by
  cases h : config.bootstrapper <;> simp [DiscoveryBehaviour.new, h]

/-- Closed instantiation of C3_initial_bootstrap at a bootstrapper
configuration. -/
theorem C3_initial_bootstrap_witness :
    (DiscoveryBehaviour.new
        { bootstrap_nodes := [], bootstrapper := true, mdns := false,
          bootstrap_interval := 9 } 0).next_bootstrap = none :=
  (C3_initial_bootstrap
      { bootstrap_nodes := [], bootstrapper := true, mdns := false,
        bootstrap_interval := 9 } 0).2 rfl

/-!
C5 — connection bookkeeping on swarm events.
-/

/-- C5: ConnectionEstablished(peer) adds the peer to the peers set, stores
the current addresses_of_peer snapshot under the peer in peer_info and
enqueues Connected(peer); ConnectionClosed(peer) removes the peer from the
peers set and enqueues Disconnected(peer) in the same step, leaving
peer_info untouched. -/
theorem C5_connection_bookkeeping (st : DiscoveryBehaviour) (p : PeerId) :
    ((st.on_swarm_event (.connectionEstablished p)).peers = insertPeer st.peers p ∧
      p ∈ (st.on_swarm_event (.connectionEstablished p)).peers ∧
      mapLookup (st.on_swarm_event (.connectionEstablished p)).peer_info p
        = some (st.addresses_of_peer p) ∧
      (st.on_swarm_event (.connectionEstablished p)).events
        = st.events ++ [.connected p]) ∧
    ((st.on_swarm_event (.connectionClosed p)).peers = removePeer st.peers p ∧
      p ∉ (st.on_swarm_event (.connectionClosed p)).peers ∧
      (st.on_swarm_event (.connectionClosed p)).events
        = st.events ++ [.disconnected p] ∧
      (st.on_swarm_event (.connectionClosed p)).peer_info = st.peer_info) := by
  refine ⟨⟨rfl, ?_, ?_, rfl⟩, ⟨rfl, ?_, rfl, rfl⟩⟩
  · exact (mem_insertPeer st.peers p p).2 (Or.inl rfl)
  · exact mapLookup_mapInsert _ _ _
  · intro h
    exact ((mem_removePeer st.peers p p).1 h).2 rfl

/-!
C7 — address listing.
-/

/-- C7: addresses_of_peer returns exactly the concatenation of the Kademlia
addresses that Kademlia knows for the peer followed by those that mDNS knows, in
that order; occurrence counts add up, so duplicates are preserved. -/
theorem C7_addresses_concat (st : DiscoveryBehaviour) (p : PeerId) (a : Multiaddr) :
    (st.addresses_of_peer p = kadAddressesOf st p ++ mdnsAddressesOf st p) ∧
    ((st.addresses_of_peer p).count a
        = (kadAddressesOf st p).count a + (mdnsAddressesOf st p).count a) := by
  constructor
  · simp [DiscoveryBehaviour.addresses_of_peer]
  · simp [DiscoveryBehaviour.addresses_of_peer, List.count_append]

/-!
C1, C2 — bootstrap scheduling in poll and handle_kad_event.
-/

/-- With an empty event queue and a pending Kademlia engine, the poll
bootstrap flag and resulting deadline are exactly those of the scheduler
step (the mDNS loop afterwards cannot touch them). -/
theorem poll_scheduler_view (st : DiscoveryBehaviour) (inp : PollInput)
    (hq : st.events = []) (hk : inp.kadActions = []) :
    ((st.poll inp).bootstrapCalled
        = (pollBootstrap st inp.now inp.bootstrapOk).2) ∧
    ((st.poll inp).state.next_bootstrap
        = (pollBootstrap st inp.now inp.bootstrapOk).1.next_bootstrap) := by
  have hfields := pollMdnsLoop_fields
      (if (pollBootstrap st inp.now inp.bootstrapOk).1.mdns.isSome then
        inp.mdnsActions else [])
      (pollBootstrap st inp.now inp.bootstrapOk).1
  unfold DiscoveryBehaviour.poll
  rw [hq, hk]
  exact ⟨rfl, hfields.1⟩

/-- C1: when next_bootstrap is armed with some deadline, a poll whose
deadline has elapsed while fewer than twelve peers are connected calls
kademlia.bootstrap and, on successful initiation, clears next_bootstrap;
with twelve or more connected peers no bootstrap is attempted and the
deadline is left unchanged. -/
theorem C1_bootstrap_gate (st : DiscoveryBehaviour) (deadline : Nat) (inp : PollInput)
    (hq : st.events = []) (hk : inp.kadActions = [])
    (hnb : st.next_bootstrap = some deadline) :
    (deadline ≤ inp.now → st.peers.length < 12 →
        (st.poll inp).bootstrapCalled = true ∧
        (inp.bootstrapOk = true → (st.poll inp).state.next_bootstrap = none)) ∧
    (12 ≤ st.peers.length →
        (st.poll inp).bootstrapCalled = false ∧
        (st.poll inp).state.next_bootstrap = some deadline) := by
  obtain ⟨hbc, hnb2⟩ := poll_scheduler_view st inp hq hk
  constructor
  · intro hd hp
    have hc : st.peers.length < 12 ∧ deadline ≤ inp.now := ⟨hp, hd⟩
    constructor
    · rw [hbc]
      simp only [pollBootstrap, hnb, if_pos hc]
      cases inp.bootstrapOk <;> rfl
    · intro hok
      rw [hnb2]
      simp only [pollBootstrap, hnb, if_pos hc, hok, if_true]
  · intro hp
    have hc : ¬(st.peers.length < 12 ∧ deadline ≤ inp.now) := by
      intro h
      omega
    constructor
    · rw [hbc]
      simp only [pollBootstrap, hnb, if_neg hc]
    · rw [hnb2]
      simp only [pollBootstrap, hnb, if_neg hc]

/-- Closed instantiation of C1_bootstrap_gate: a successful bootstrap at an
elapsed deadline with an empty peer set clears next_bootstrap. -/
theorem C1_bootstrap_gate_witness :
    ((sampleState.poll
        { kadActions := [], mdnsActions := [], now := 5, bootstrapOk := true
        }).bootstrapCalled = true) ∧
    ((sampleState.poll
        { kadActions := [], mdnsActions := [], now := 5, bootstrapOk := true
        }).state.next_bootstrap = none) := by
  have h := (C1_bootstrap_gate sampleState 3
      { kadActions := [], mdnsActions := [], now := 5, bootstrapOk := true }
      rfl rfl rfl).1 (by decide) (by decide)
  exact ⟨h.1, h.2 rfl⟩

/-- C2: a BootstrapOk outcome with num_remaining zero re-arms next_bootstrap
with the base interval; a BootstrapErr outcome, and a failure to initiate
the bootstrap call in the scheduler step of poll, re-arm it with twice the base
interval, which dominates interval times two to the min(k,1) for any
positive failure count k. -/
theorem C2_bootstrap_reschedule (st : DiscoveryBehaviour) (now k : Nat) :
    ((st.handle_kad_event now
          (.outboundQueryProgressedBootstrap (.ok 0))).next_bootstrap
        = some (now + st.bootstrap_interval)) ∧
    ((st.handle_kad_event now
          (.outboundQueryProgressedBootstrap .err)).next_bootstrap
        = some (now + st.bootstrap_interval * 2)) ∧
    (∀ deadline, st.next_bootstrap = some deadline → deadline ≤ now →
        st.peers.length < 12 →
        (pollBootstrap st now false).1.next_bootstrap
          = some (now + st.bootstrap_interval * 2)) ∧
    (1 ≤ k →
        now + st.bootstrap_interval * 2 ^ min k 1
          ≤ now + st.bootstrap_interval * 2) := by
  refine ⟨rfl, rfl, ?_, ?_⟩
  · intro deadline hnb hd hp
    simp only [pollBootstrap, hnb, if_pos (And.intro hp hd)]
    rfl
  · intro hk
    have hmin : min k 1 = 1 := by omega
    simp [hmin]

/-- Closed instantiation of C2_bootstrap_reschedule: a failed initiation at
deadline three, instant five, re-arms with twice the interval, and the
backoff bound holds at k equal to two. -/
theorem C2_bootstrap_reschedule_witness :
    ((pollBootstrap sampleState 5 false).1.next_bootstrap
        = some (5 + sampleState.bootstrap_interval * 2)) ∧
    (5 + sampleState.bootstrap_interval * 2 ^ min 2 1
        ≤ 5 + sampleState.bootstrap_interval * 2) := by
  have h := C2_bootstrap_reschedule sampleState 5 2
  exact ⟨h.2.2.1 3 rfl (by decide) (by decide), h.2.2.2 (by decide)⟩

/-!
C6 — queued events are emitted first, in FIFO order.
-/

/-- When the pending queue is non-empty, poll pops its front and returns it,
touching nothing else. -/
theorem poll_front (st : DiscoveryBehaviour) (inp : PollInput) (e : DiscoveryEvent)
    (rest : List DiscoveryEvent) (hq : st.events = e :: rest) :
    st.poll inp =
      { state := { st with events := rest }, bootstrapCalled := false
        action := some (.generateEvent e) } := by
  unfold DiscoveryBehaviour.poll
  rw [hq]

/-- Polling as many times as there are queued events emits exactly the queue,
in order. -/
theorem pollTrace_drains (inp : PollInput) :
    ∀ (q : List DiscoveryEvent) (st : DiscoveryBehaviour), st.events = q →
      pollTrace inp st q.length
        = q.map (fun ev => some (NBAction.generateEvent ev)) := by
  intro q
  induction q with
  | nil => intro st _; rfl
  | cons e rest ih =>
    intro st h
    have hp := poll_front st inp e rest h
    simp only [pollTrace, List.length_cons, hp, List.map_cons]
    exact congrArg _ (ih _ rfl)

/-- C6: with a non-empty pending queue, poll returns the front of the queue
as a generated event before consulting the Kademlia engine, the bootstrap
scheduler or the mDNS engine (the rest of the state is untouched and no
bootstrap is called), and repeated polls drain the queue in FIFO order. -/
theorem C6_queue_first (st : DiscoveryBehaviour) (inp : PollInput) (e : DiscoveryEvent)
    (rest : List DiscoveryEvent) (hq : st.events = e :: rest) :
    ((st.poll inp).action = some (.generateEvent e) ∧
      (st.poll inp).state = { st with events := rest } ∧
      (st.poll inp).bootstrapCalled = false) ∧
    pollTrace inp st st.events.length
      = st.events.map (fun ev => some (NBAction.generateEvent ev)) := by
  have hp := poll_front st inp e rest hq
  exact ⟨⟨by rw [hp], by rw [hp], by rw [hp]⟩,
    pollTrace_drains inp st.events st rfl⟩

/-!
C10 — forwarding and filtering of sub-engine actions in poll.
-/

/-- How poll forwards a non-GenerateEvent Kademlia action: payloads are
passed through unchanged, only the out-event type parameter changes. -/
def forwardKadAction : NBAction KademliaEvent → Option (NBAction DiscoveryEvent)
  | .generateEvent _ => none
  | .dial o => some (.dial o)
  | .notifyHandler p ev => some (.notifyHandler p ev)
  | .reportObservedAddr a s => some (.reportObservedAddr a s)
  | .closeConnection p c => some (.closeConnection p c)

/-- A Kademlia stream made only of generated events yields no forwarded
action from the Kademlia loop. -/
theorem pollKadLoop_all_gen (now : Nat) :
    ∀ (acts : List (NBAction KademliaEvent)) (st : DiscoveryBehaviour),
      (∀ a ∈ acts, ∃ e, a = NBAction.generateEvent e) →
      (pollKadLoop now st acts).2 = none := by
  intro acts
  induction acts with
  | nil => intro st _; rfl
  | cons a rest ih =>
    intro st h
    obtain ⟨e, rfl⟩ := h a (List.mem_cons_self a rest)
    simp only [pollKadLoop]
    exact ih _ (fun b hb => h b (List.mem_cons_of_mem _ hb))

/-- Any action the mDNS loop forwards is a ReportObservedAddr or a
CloseConnection occurring in the mDNS stream, with its payload unchanged. -/
theorem pollMdnsLoop_out :
    ∀ (acts : List (NBAction MdnsEvent)) (st : DiscoveryBehaviour)
      (a : NBAction DiscoveryEvent),
      (pollMdnsLoop st acts).2 = some a →
      ((∃ addr s, a = .reportObservedAddr addr s ∧
          NBAction.reportObservedAddr (E := MdnsEvent) addr s ∈ acts) ∨
        (∃ p c, a = .closeConnection p c ∧
          NBAction.closeConnection (E := MdnsEvent) p c ∈ acts)) := by
  intro acts
  induction acts with
  | nil =>
    intro st a h
    cases h
  | cons b rest ih =>
    intro st a h
    cases b with
    | generateEvent e =>
      simp only [pollMdnsLoop] at h
      rcases ih (st.handle_mdns_event e) a h with ⟨addr, s, heq, hm⟩ | ⟨p, c, heq, hm⟩
      · exact Or.inl ⟨addr, s, heq, List.mem_cons_of_mem _ hm⟩
      · exact Or.inr ⟨p, c, heq, List.mem_cons_of_mem _ hm⟩
    | dial o =>
      simp only [pollMdnsLoop] at h
      rcases ih st a h with ⟨addr, s, heq, hm⟩ | ⟨p, c, heq, hm⟩
      · exact Or.inl ⟨addr, s, heq, List.mem_cons_of_mem _ hm⟩
      · exact Or.inr ⟨p, c, heq, List.mem_cons_of_mem _ hm⟩
    | notifyHandler p ev =>
      simp only [pollMdnsLoop] at h
      rcases ih st a h with ⟨addr, s, heq, hm⟩ | ⟨p2, c2, heq, hm⟩
      · exact Or.inl ⟨addr, s, heq, List.mem_cons_of_mem _ hm⟩
      · exact Or.inr ⟨p2, c2, heq, List.mem_cons_of_mem _ hm⟩
    | reportObservedAddr addr s =>
      simp only [pollMdnsLoop, Option.some.injEq] at h
      exact Or.inl ⟨addr, s, h.symm, List.mem_cons_self _ _⟩
    | closeConnection p c =>
      simp only [pollMdnsLoop, Option.some.injEq] at h
      exact Or.inr ⟨p, c, h.symm, List.mem_cons_self _ _⟩

/-- C10: the Kademlia loop forwards all four non-event action kinds
unchanged, while the mDNS loop silently drops Dial and NotifyHandler
(continuing the loop on the same state) and forwards only ReportObservedAddr
and CloseConnection; consequently a poll whose Kademlia stream only
generates events never returns a Dial or NotifyHandler action. -/
theorem C10_subengine_action_filtering :
    (∀ (st : DiscoveryBehaviour) (now : Nat) (a : NBAction KademliaEvent)
        (rest : List (NBAction KademliaEvent)) (b : NBAction DiscoveryEvent),
        forwardKadAction a = some b →
        pollKadLoop now st (a :: rest) = (st, some b)) ∧
    (∀ (st : DiscoveryBehaviour) (o : Nat) (rest : List (NBAction MdnsEvent)),
        pollMdnsLoop st (.dial o :: rest) = pollMdnsLoop st rest) ∧
    (∀ (st : DiscoveryBehaviour) (p : PeerId) (ev : Nat)
        (rest : List (NBAction MdnsEvent)),
        pollMdnsLoop st (.notifyHandler p ev :: rest) = pollMdnsLoop st rest) ∧
    (∀ (st : DiscoveryBehaviour) (acts : List (NBAction MdnsEvent))
        (a : NBAction DiscoveryEvent),
        (pollMdnsLoop st acts).2 = some a →
        ((∃ addr s, a = .reportObservedAddr addr s ∧
            NBAction.reportObservedAddr (E := MdnsEvent) addr s ∈ acts) ∨
          (∃ p c, a = .closeConnection p c ∧
            NBAction.closeConnection (E := MdnsEvent) p c ∈ acts))) ∧
    (∀ (st : DiscoveryBehaviour) (inp : PollInput), st.events = [] →
        (∀ a ∈ inp.kadActions, ∃ e, a = NBAction.generateEvent e) →
        ∀ (o peer ev : Nat),
          (st.poll inp).action ≠ some (.dial o) ∧
          (st.poll inp).action ≠ some (.notifyHandler peer ev)) := by
  refine ⟨?_, ?_, ?_, fun st acts a h => pollMdnsLoop_out acts st a h, ?_⟩
  · intro st now a rest b hf
    cases a <;> simp_all [forwardKadAction, pollKadLoop]
  · intro st o rest
    rfl
  · intro st p ev rest
    rfl
  · intro st inp hq hall o peer ev
    cases hkl : pollKadLoop inp.now st inp.kadActions with
    | mk st1 out =>
      have hout : out = none := by
        have h2 := pollKadLoop_all_gen inp.now inp.kadActions st hall
        rw [hkl] at h2
        exact h2
      subst hout
      have hpoll : (st.poll inp).action =
          (pollMdnsLoop (pollBootstrap st1 inp.now inp.bootstrapOk).1
            (if (pollBootstrap st1 inp.now inp.bootstrapOk).1.mdns.isSome then
              inp.mdnsActions else [])).2 := by
        unfold DiscoveryBehaviour.poll
        rw [hq, hkl]
      rw [hpoll]
      constructor
      · intro hcontra
        rcases pollMdnsLoop_out _ _ _ hcontra with ⟨addr, s, heq, _⟩ | ⟨p2, c2, heq, _⟩
        · simp at heq
        · simp at heq
      · intro hcontra
        rcases pollMdnsLoop_out _ _ _ hcontra with ⟨addr, s, heq, _⟩ | ⟨p2, c2, heq, _⟩
        · simp at heq
        · simp at heq

/-- Closed instantiation of C10_subengine_action_filtering: a Dial from
Kademlia is forwarded, a Dial and a NotifyHandler from mDNS are dropped, and
a poll with a purely event-generating Kademlia stream returns neither
action kind. -/
theorem C10_subengine_action_filtering_witness :
    (pollKadLoop 0 sampleState [.dial 4] = (sampleState, some (.dial 4))) ∧
    (pollMdnsLoop sampleState [.dial 4] = pollMdnsLoop sampleState []) ∧
    (pollMdnsLoop sampleState [.notifyHandler 1 2] = pollMdnsLoop sampleState []) ∧
    ((sampleState.poll
        { kadActions := [.generateEvent .other], mdnsActions := [], now := 0,
          bootstrapOk := true }).action ≠ some (.dial 0) ∧
      (sampleState.poll
        { kadActions := [.generateEvent .other], mdnsActions := [], now := 0,
          bootstrapOk := true }).action ≠ some (.notifyHandler 0 0)) := by
  have h := C10_subengine_action_filtering
  refine ⟨h.1 sampleState 0 (.dial 4) [] (.dial 4) rfl, h.2.1 sampleState 4 [],
    h.2.2.1 sampleState 1 2 [], ?_⟩
  exact h.2.2.2.2 sampleState
    { kadActions := [.generateEvent .other], mdnsActions := [], now := 0,
      bootstrapOk := true } rfl
    (by intro a ha; simp at ha; exact ⟨.other, ha⟩) 0 0 0

/-- A poll input with both engines pending. -/
def samplePollInput : PollInput :=
  { kadActions := [], mdnsActions := [], now := 0, bootstrapOk := true }

/-- A discovery state with two queued events. -/
def queuedState : DiscoveryBehaviour :=
  { sampleState with events := [.connected 4, .disconnected 4] }

/-!
C4 — per-peer event-stream structure and peers-set membership.
-/

/-- Folding swarm events appends exactly their images under evOf to the
pending queue. -/
theorem runSwarm_events :
    ∀ (es : List FromSwarm) (st : DiscoveryBehaviour),
      (runSwarm st es).events = st.events ++ es.filterMap evOf := by
  intro es
  induction es with
  | nil => intro st; simp [runSwarm]
  | cons e rest ih =>
    intro st
    simp only [runSwarm]
    rw [ih]
    cases e with
    | connectionEstablished p =>
      simp [DiscoveryBehaviour.on_swarm_event, evOf]
    | connectionClosed p =>
      simp [DiscoveryBehaviour.on_swarm_event, evOf]
    | other =>
      simp [DiscoveryBehaviour.on_swarm_event, evOf]

/-- The per-peer boolean view of the enqueued events equals the per-peer
projection of the swarm event sequence. -/
theorem mirror_filter (p : PeerId) :
    ∀ es : List FromSwarm,
      ((es.filterMap evOf).filter (eventFor p)).map isConn
        = es.filterMap (swarmFor p) := by
  intro es
  induction es with
  | nil => rfl
  | cons e rest ih =>
    cases e with
    | connectionEstablished q =>
      by_cases hq : q = p
      · subst hq
        simp [evOf, swarmFor, eventFor, isConn, ih]
      · simp [evOf, swarmFor, eventFor, hq, ih]
    | connectionClosed q =>
      by_cases hq : q = p
      · subst hq
        simp [evOf, swarmFor, eventFor, isConn, ih]
      · simp [evOf, swarmFor, eventFor, hq, ih]
    | other => simpa [evOf, swarmFor] using ih

/-- Membership of the peers set after one swarm event. -/
theorem mem_peers_on_swarm_event (st : DiscoveryBehaviour) (e : FromSwarm)
    (p : PeerId) :
    p ∈ (st.on_swarm_event e).peers ↔
      (match swarmFor p e with
       | some b => b = true
       | none => p ∈ st.peers) := by
  cases e with
  | connectionEstablished q =>
    by_cases hq : q = p
    · subst hq
      simp [DiscoveryBehaviour.on_swarm_event, swarmFor, mem_insertPeer]
    · have hq2 : ¬p = q := fun h => hq h.symm
      simp [DiscoveryBehaviour.on_swarm_event, swarmFor, hq, hq2, mem_insertPeer]
  | connectionClosed q =>
    by_cases hq : q = p
    · subst hq
      simp [DiscoveryBehaviour.on_swarm_event, swarmFor, mem_removePeer]
    · have hq2 : ¬p = q := fun h => hq h.symm
      simp [DiscoveryBehaviour.on_swarm_event, swarmFor, hq, hq2, mem_removePeer]
  | other => rfl

/-- Membership of the peers set after a swarm event sequence is decided by
the most recent connection event for the peer, defaulting to the initial
membership. -/
theorem mem_peers_runSwarm :
    ∀ (es : List FromSwarm) (st : DiscoveryBehaviour) (p : PeerId),
      p ∈ (runSwarm st es).peers ↔
        (match lastStatus p es with
         | some b => b = true
         | none => p ∈ st.peers) := by
  intro es
  induction es with
  | nil => intro st p; exact Iff.rfl
  | cons e rest ih =>
    intro st p
    simp only [runSwarm, lastStatus]
    rw [ih (st.on_swarm_event e) p]
    cases hls : lastStatus p rest with
    | some b => simp [hls]
    | none =>
      simp only [hls]
      exact mem_peers_on_swarm_event st e p

/-- C4 (amended): after any swarm event sequence from construction, the
per-peer enqueued event stream (viewed as a boolean Connected/Disconnected
stream) equals the per-peer swarm connection-event stream, so it is a
well-formed alternation starting with Connected whenever the swarm delivers
an alternation starting with ConnectionEstablished; and any member of the
peers set either has a ConnectionEstablished as its most recent swarm
connection event (hence a Connected enqueued since its last disconnect) or
is a construction-seeded bootstrap peer untouched by swarm events. -/
theorem C4_event_stream (c : NetworkConfig) (t : Nat) (es : List FromSwarm)
    (p : PeerId) :
    ((((runSwarm (DiscoveryBehaviour.new c t) es).events.filter
          (eventFor p)).map isConn) = es.filterMap (swarmFor p)) ∧
    (altFrom true (es.filterMap (swarmFor p)) →
      altFrom true
        (((runSwarm (DiscoveryBehaviour.new c t) es).events.filter
            (eventFor p)).map isConn)) ∧
    (p ∈ (runSwarm (DiscoveryBehaviour.new c t) es).peers →
      lastStatus p es = some true ∨
        (lastStatus p es = none ∧ p ∈ (DiscoveryBehaviour.new c t).peers)) := by
  have hmirror :
      (((runSwarm (DiscoveryBehaviour.new c t) es).events.filter
          (eventFor p)).map isConn) = es.filterMap (swarmFor p) := by
    rw [runSwarm_events es (DiscoveryBehaviour.new c t)]
    have hnil : (DiscoveryBehaviour.new c t).events = [] := rfl
    rw [hnil]
    simpa using mirror_filter p es
  refine ⟨hmirror, ?_, ?_⟩
  · intro halt
    rwa [hmirror]
  · intro hmem
    have h := (mem_peers_runSwarm es (DiscoveryBehaviour.new c t) p).1 hmem
    cases hls : lastStatus p es with
    | some b =>
      simp only [hls] at h
      exact Or.inl (congrArg some h)
    | none =>
      simp only [hls] at h
      exact Or.inr ⟨rfl, h⟩

/-- A configuration with a single parsed bootstrap node, peer 7 at address 3. -/
def exampleConfig : NetworkConfig :=
  { bootstrap_nodes := [some (7, 3)], bootstrapper := false, mdns := false,
    bootstrap_interval := 100 }

/-- C4 fails as stated: at construction with one bootstrap node, peer 7 is a
member of peers while the event queue is empty (no Connected was ever
enqueued for it), and two ConnectionEstablished events for the same peer
enqueue two consecutive Connected events, which is not a well-formed
alternation. -/
theorem C4_event_stream_counterexample :
    (7 ∈ (DiscoveryBehaviour.new exampleConfig 0).peers ∧
      (DiscoveryBehaviour.new exampleConfig 0).events = []) ∧
    ((runSwarm (DiscoveryBehaviour.new exampleConfig 0)
        [.connectionEstablished 1, .connectionEstablished 1]).events
      = [.connected 1, .connected 1] ∧
      ¬altFrom true
        ((((runSwarm (DiscoveryBehaviour.new exampleConfig 0)
            [.connectionEstablished 1, .connectionEstablished 1]).events.filter
          (eventFor 1)).map isConn))) := by
  decide

/-- Closed instantiation of C4_event_stream on a single establishment. -/
theorem C4_event_stream_witness :
    (altFrom true
        (((runSwarm (DiscoveryBehaviour.new exampleConfig 0)
            [FromSwarm.connectionEstablished 1]).events.filter
          (eventFor 1)).map isConn)) ∧
    (lastStatus 1 [FromSwarm.connectionEstablished 1] = some true ∨
      (lastStatus 1 [FromSwarm.connectionEstablished 1] = none ∧
        1 ∈ (DiscoveryBehaviour.new exampleConfig 0).peers)) := by
  have h := C4_event_stream exampleConfig 0 [FromSwarm.connectionEstablished 1] 1
  exact ⟨h.2.1 (by decide), h.2.2 (by decide)⟩

/-- Closed instantiation of C6_queue_first on a two-element queue. -/
theorem C6_queue_first_witness :
    (((queuedState.poll samplePollInput).action
        = some (.generateEvent (.connected 4)) ∧
      (queuedState.poll samplePollInput).state
        = { queuedState with events := [.disconnected 4] } ∧
      (queuedState.poll samplePollInput).bootstrapCalled = false) ∧
    pollTrace samplePollInput queuedState queuedState.events.length
      = queuedState.events.map (fun ev => some (NBAction.generateEvent ev))) :=
  C6_queue_first queuedState samplePollInput (.connected 4) [.disconnected 4] rfl

/-!
C8 — graceful shutdown ordering.
-/

/-- Any decomposition of the worker-await tail at a sendCacheShutdown step
is the canonical one: all worker awaits precede it and only the cache-worker
await follows it. -/
theorem shutdown_tail_split :
    ∀ (ws : List GatewayWorker) (l1 l2 : List ShutdownStep),
      ws.map ShutdownStep.awaitWorker
          ++ [ShutdownStep.sendCacheShutdown, ShutdownStep.awaitCacheWorker]
        = l1 ++ ShutdownStep.sendCacheShutdown :: l2 →
      l1 = ws.map ShutdownStep.awaitWorker ∧ l2 = [ShutdownStep.awaitCacheWorker] := by
  intro ws
  induction ws with
  | nil =>
    intro l1 l2 h
    cases l1 with
    | nil =>
      simp only [List.map_nil, List.nil_append, List.cons.injEq] at h
      exact ⟨rfl, h.2.symm⟩
    | cons x l1 =>
      simp only [List.map_nil, List.nil_append, List.cons_append,
        List.cons.injEq] at h
      obtain ⟨rfl, h2⟩ := h
      exfalso
      have hmem : ShutdownStep.sendCacheShutdown
          ∈ l1 ++ ShutdownStep.sendCacheShutdown :: l2 :=
        List.mem_append_right _ (List.mem_cons_self _ _)
      rw [← h2] at hmem
      exact absurd hmem (by decide)
  | cons w rest ih =>
    intro l1 l2 h
    cases l1 with
    | nil =>
      simp only [List.map_cons, List.cons_append, List.nil_append] at h
      exact absurd (List.head_eq_of_cons_eq h) (by simp)
    | cons x l1 =>
      simp only [List.map_cons, List.cons_append, List.cons.injEq] at h
      obtain ⟨rfl, h2⟩ := h
      obtain ⟨rfl, rfl⟩ := ih l1 l2 h2
      exact ⟨rfl, rfl⟩

/-- C8: graceful_shutdown broadcasts the shutdown first and awaits the cache
worker last; at the point the cache-worker shutdown is sent, every worker in
the vec has already been awaited, and the only step after it is the
cache-worker await. -/
theorem C8_shutdown_order (workers : List GatewayWorker) :
    ((graceful_shutdown workers).head? = some .broadcastShutdown) ∧
    ((graceful_shutdown workers).getLast? = some .awaitCacheWorker) ∧
    (∀ l1 l2,
        graceful_shutdown workers = l1 ++ ShutdownStep.sendCacheShutdown :: l2 →
          (∀ w ∈ workers, ShutdownStep.awaitWorker w ∈ l1) ∧
          l2 = [ShutdownStep.awaitCacheWorker]) ∧
    (∀ w : GatewayWorker,
        ShutdownStep.awaitWorker w ∈ graceful_shutdown gatewayWorkers) ∧
    (ShutdownStep.sendCacheShutdown ∈ graceful_shutdown workers) := by
  refine ⟨rfl, ?_, ?_, ?_, ?_⟩
  · have hsplit : graceful_shutdown workers
        = (ShutdownStep.broadcastShutdown :: workers.map ShutdownStep.awaitWorker
            ++ [ShutdownStep.sendCacheShutdown]) ++ [ShutdownStep.awaitCacheWorker] := by
      simp [graceful_shutdown]
    rw [hsplit]
    exact List.getLast?_concat _
  · intro l1 l2 h
    cases l1 with
    | nil =>
      simp only [graceful_shutdown, List.nil_append, List.cons.injEq] at h
      exact absurd h.1 (by decide)
    | cons x l1 =>
      simp only [graceful_shutdown, List.cons_append, List.cons.injEq] at h
      obtain ⟨rfl, h2⟩ := h
      obtain ⟨rfl, rfl⟩ := shutdown_tail_split workers l1 l2 h2
      refine ⟨?_, rfl⟩
      intro w hw
      exact List.mem_cons_of_mem _ (List.mem_map_of_mem _ hw)
  · intro w
    cases w <;> decide
  · simp [graceful_shutdown]

/-- Closed instantiation of C8_shutdown_order at the gateway worker vec
and the canonical split at sendCacheShutdown. -/
theorem C8_shutdown_order_witness :
    (∀ w ∈ gatewayWorkers,
        ShutdownStep.awaitWorker w
          ∈ [ShutdownStep.broadcastShutdown,
              ShutdownStep.awaitWorker GatewayWorker.publicServer,
              ShutdownStep.awaitWorker GatewayWorker.adminServer,
              ShutdownStep.awaitWorker GatewayWorker.ttlSweeper]) ∧
    [ShutdownStep.awaitCacheWorker] = [ShutdownStep.awaitCacheWorker] :=
  (C8_shutdown_order gatewayWorkers).2.2.1
    [ShutdownStep.broadcastShutdown,
      ShutdownStep.awaitWorker GatewayWorker.publicServer,
      ShutdownStep.awaitWorker GatewayWorker.adminServer,
      ShutdownStep.awaitWorker GatewayWorker.ttlSweeper]
    [ShutdownStep.awaitCacheWorker] (by decide)

/-!
C9 — the TTL sweeper loop.
-/

/-- Termination and effect accounting for the TTL sweeper loop: the loop
stops exactly when a shutdown branch fires; the number of failure signals
sent equals the number of failed ticks before the first shutdown; the
number of TtlCleanUp posts equals the number of successful ticks before the
first shutdown. -/
theorem ttl_run_props :
    ∀ bs : List TtlBranch,
      ((ttl_run bs).2 = false ↔ TtlBranch.shutdown ∈ bs) ∧
      ((ttl_run bs).1.count .sendFailureSignal
          = ((bs.takeWhile (fun b => b ≠ TtlBranch.shutdown)).count
              (TtlBranch.tick false))) ∧
      ((ttl_run bs).1.count .postTtlCleanUp
          = ((bs.takeWhile (fun b => b ≠ TtlBranch.shutdown)).count
              (TtlBranch.tick true))) := by
  intro bs
  induction bs with
  | nil => exact ⟨by simp [ttl_run], rfl, rfl⟩
  | cons b rest ih =>
    cases b with
    | tick ok =>
      cases ok with
      | false =>
        refine ⟨?_, ?_, ?_⟩
        · simpa [ttl_run, ttl_step] using ih.1
        · simpa [ttl_run, ttl_step, List.takeWhile_cons, List.count_cons]
            using ih.2.1
        · simpa [ttl_run, ttl_step, List.takeWhile_cons, List.count_cons]
            using ih.2.2
      | true =>
        refine ⟨?_, ?_, ?_⟩
        · simpa [ttl_run, ttl_step] using ih.1
        · simpa [ttl_run, ttl_step, List.takeWhile_cons, List.count_cons]
            using ih.2.1
        · simpa [ttl_run, ttl_step, List.takeWhile_cons, List.count_cons]
            using ih.2.2
    | shutdown =>
      refine ⟨?_, ?_, ?_⟩
      · simp [ttl_run, ttl_step]
      · simp [ttl_run, ttl_step, List.takeWhile_cons]
      · simp [ttl_run, ttl_step, List.takeWhile_cons]

/-- C9 (amended): a tick whose post succeeds emits exactly a TtlCleanUp
post and continues; a tick whose post fails emits exactly one failure
signal for that tick and continues looping (it does not break); the loop
terminates exactly when the shutdown branch is selected, and over any run
the failure signals sent equal the failed ticks before shutdown. -/
theorem C9_ttl_sweeper (bs : List TtlBranch) :
    (ttl_step (.tick true) = ([.postTtlCleanUp], true)) ∧
    (ttl_step (.tick false) = ([.sendFailureSignal], true)) ∧
    (ttl_step .shutdown = ([], false)) ∧
    ((ttl_run bs).2 = false ↔ TtlBranch.shutdown ∈ bs) ∧
    ((ttl_run bs).1.count .sendFailureSignal
        = ((bs.takeWhile (fun b => b ≠ TtlBranch.shutdown)).count
            (TtlBranch.tick false))) ∧
    ((ttl_run bs).1.count .postTtlCleanUp
        = ((bs.takeWhile (fun b => b ≠ TtlBranch.shutdown)).count
            (TtlBranch.tick true))) := by
  have h := ttl_run_props bs
  exact ⟨rfl, rfl, rfl, h.1, h.2.1, h.2.2⟩

/-- C9 fails as stated: after a failed post the loop is still running (it
does not terminate), and two failed ticks before any shutdown send two
failure signals, not exactly one. -/
theorem C9_ttl_sweeper_counterexample :
    ((ttl_run [TtlBranch.tick false]).2 = true) ∧
    ((ttl_run [TtlBranch.tick false, TtlBranch.tick false]).1.count
        TtlEffect.sendFailureSignal = 2) := by
  decide

/-- Closed instantiation of C9_ttl_sweeper on a failed tick, a successful
tick and a shutdown. -/
theorem C9_ttl_sweeper_witness :
    ((ttl_run [TtlBranch.tick false, TtlBranch.tick true, TtlBranch.shutdown]).2
        = false ↔ TtlBranch.shutdown
          ∈ [TtlBranch.tick false, TtlBranch.tick true, TtlBranch.shutdown]) ∧
    ((ttl_run [TtlBranch.tick false, TtlBranch.tick true,
        TtlBranch.shutdown]).1.count TtlEffect.sendFailureSignal
      = (([TtlBranch.tick false, TtlBranch.tick true,
          TtlBranch.shutdown].takeWhile (fun b => b ≠ TtlBranch.shutdown)).count
          (TtlBranch.tick false))) := by
  have h := C9_ttl_sweeper [TtlBranch.tick false, TtlBranch.tick true,
    TtlBranch.shutdown]
  exact ⟨h.2.2.2.1, h.2.2.2.2.1⟩

end Ursa

